import Mathlib

/-!
Shallow embedding of `points_shape_detect/Module/trainer.py` (class `Trainer`):
the checkpoint lifecycle (`saveModel` / `loadModel` / `loadSummaryWriter`), the
loss aggregation and best-model tracking of `trainStep`, the epoch loop of
`train`, and the two schedule lambdas built in `__init__`.

Python floats are modelled as rationals (`ℚ`); `float('inf')` is modelled by a
dedicated `LossBound.inf` constructor.  Tensors appearing as loss values are
modelled by their payload: a zero-dimensional tensor is `Tensor.scalar v`, a
higher-dimensional one is `Tensor.vec vs` (its flattened entries).  External
collaborators (the network forward pass, `seprate_point_cloud`, the optimizer
update) are parameters of the embedding, gathered in `Collab`.  The filesystem
visible to checkpoint I/O is a map from paths to file contents; a file is
either a `complete` checkpoint bundle or a `truncated` partial write.
-/

/-- Model parameters (`self.model.state_dict()`), abstracted to a payload. -/
structure ModelParams where
  params : List ℚ
deriving DecidableEq

/-- Optimizer internal state (`self.optimizer.state_dict()`), abstracted. -/
structure OptimState where
  data : List ℚ
deriving DecidableEq

/-- `self.loss_min`: a float that is either `float('inf')` or a finite value. -/
inductive LossBound where
  | inf
  | fin (v : ℚ)
deriving DecidableEq

/-- `loss_sum_float < self.loss_min` — comparison of a finite float with a
possibly infinite bound, as Python evaluates it. -/
def LossBound.ltBound (x : ℚ) : LossBound → Bool
  | .inf => true
  | .fin v => decide (x < v)

/-- A loss tensor: zero-dimensional (`len(loss.shape) == 0`) or flattened. -/
inductive Tensor where
  | scalar (v : ℚ)
  | vec (vs : List ℚ)
deriving DecidableEq

/-- `loss if len(loss.shape) > 0 else loss.reshape(1)` — the entries of the
tensor each loss term contributes to the concatenation. -/
def Tensor.flat : Tensor → List ℚ
  | .scalar v => [v]
  | .vec vs => vs

/-- `data['losses']`: mapping from loss-term name to tensor (insertion order). -/
def LossMap : Type := List (String × Tensor)

/-- `torch.cat([loss if len(loss.shape) > 0 else loss.reshape(1) for loss in
data['losses'].values()])`. -/
def catLosses (lm : LossMap) : List ℚ :=
  (lm.map (fun p => p.2.flat)).flatten

/-- `loss_sum = torch.sum(losses_tensor)`. -/
def lossSum (lm : LossMap) : ℚ :=
  (catLosses lm).sum

/-- `torch.mean(loss_tensor)` of one (flattened) loss term. -/
def lossMean (t : Tensor) : ℚ :=
  t.flat.sum / (t.flat.length : ℚ)

/-- The checkpoint bundle `model_dict` built by `Trainer.saveModel`. -/
structure Checkpoint where
  model : ModelParams
  optimizer : OptimState
  step : Nat
  loss_min : LossBound
  log_folder_name : String
deriving DecidableEq

/-- Content of a file on disk: a completely written checkpoint bundle, or the
truncated remains of an interrupted write. -/
inductive File where
  | complete (ck : Checkpoint)
  | truncated
deriving DecidableEq

/-- The filesystem as seen by checkpoint I/O: path → content. -/
def FS : Type := String → Option File

/-- Result of a completed `torch.save(model_dict, path)`. -/
def writeFile (fs : FS) (p : String) (f : File) : FS :=
  fun q => if q = p then some f else fs q

/-- Modelled from the spec: `removeFile` (from `Method/path.py`, not under
`src/`) deletes any pre-existing file at the path. -/
def removeFile (fs : FS) (p : String) : FS :=
  fun q => if q = p then none else fs q

/-- Modelled from the spec: `renameFile` (from `Method/path.py`, not under
`src/`) renames the source file into the destination place. -/
def renameFile (fs : FS) (src dst : String) : FS :=
  fun q => if q = dst then fs src else if q = src then none else fs q

/-- Python `s.split(sep)[0]` on character lists: everything strictly before
the first occurrence of `sep` (the whole string when `sep` never occurs). -/
def splitFirst (sep : List Char) : List Char → List Char
  | [] => []
  | c :: cs => if sep.isPrefixOf (c :: cs) then [] else c :: splitFirst sep cs

/-- `tmp_save_model_file_path = save_model_file_path.split(".pth")[0] +
"_tmp.pth"`. -/
def tmpPath (p : String) : String :=
  ⟨splitFirst ".pth".data p.data ++ "_tmp.pth".data⟩

/-- Error raised when `self.summary_writer.add_scalar(...)` is reached while
`self.summary_writer` is `None` (`AttributeError` in Python). -/
def writerErr : String := "summary_writer is None"

/-- `"./logs/" + self.log_folder_name + "/"` — the `SummaryWriter` target. -/
def writerPath (name : String) : String := "./logs/" ++ name ++ "/"

/-- `"./output/" + self.log_folder_name + "/model_best.pth"`. -/
def bestModelPath (name : String) : String :=
  "./output/" ++ name ++ "/model_best.pth"

/-- `"./output/" + self.log_folder_name + "/model_last.pth"`. -/
def lastModelPath (name : String) : String :=
  "./output/" ++ name ++ "/model_last.pth"

/-- The mutable run state of a `Trainer` that the claims are about: model and
optimizer state, `self.step`, `self.loss_min`, `self.log_folder_name`, the
(initially absent) summary writer, and the epoch counters of the two schedule
controllers (`LambdaLR` and `BNMomentumScheduler`, both starting at epoch 0). -/
structure TrainerState where
  model : ModelParams
  optimizer : OptimState
  step : Nat
  loss_min : LossBound
  log_folder_name : String
  summary_writer : Option String
  sched_epoch : Nat
  bn_epoch : Nat
deriving DecidableEq

/-- The fields `Trainer.__init__` sets: `step = 0`, `loss_min = float('inf')`,
`log_folder_name = getCurrentTime()`, `summary_writer = None`, both schedule
controllers at epoch 0.  The freshly constructed network and optimizer are
abstract inputs. -/
def initTrainer (current_time : String) (m : ModelParams) (o : OptimState) :
    TrainerState :=
  { model := m, optimizer := o, step := 0, loss_min := .inf,
    log_folder_name := current_time, summary_writer := none,
    sched_epoch := 0, bn_epoch := 0 }

/-- `Trainer.loadSummaryWriter`: opens a `SummaryWriter` on
`"./logs/" + self.log_folder_name + "/"`. -/
def loadSummaryWriter (s : TrainerState) : TrainerState :=
  { s with summary_writer := some (writerPath s.log_folder_name) }

/-- The `model_dict` bundle that `Trainer.saveModel` assembles. -/
def mkCheckpoint (s : TrainerState) : Checkpoint :=
  { model := s.model, optimizer := s.optimizer, step := s.step,
    loss_min := s.loss_min, log_folder_name := s.log_folder_name }

/-- `Trainer.saveModel`: write the bundle to the temporary sibling path, then
remove any pre-existing destination file, then rename the temporary file into
place.  (`createFileFolder` only creates directories and does not change any
file content.)  Returns the resulting filesystem. -/
def saveModel (s : TrainerState) (fs : FS) (p : String) : FS :=
  let tmp := tmpPath p
  let fs2 := writeFile fs tmp (File.complete (mkCheckpoint s))
  let fs3 := removeFile fs2 p
  renameFile fs3 tmp p

/-- The filesystem at every interruption point of `Trainer.saveModel`: before
anything happens, in the middle of `torch.save` to the temporary path (the
temporary file is truncated), after the temporary write completes, after
`removeFile` of the destination, and after the final `renameFile`. -/
def saveModelTrace (s : TrainerState) (fs : FS) (p : String) : List FS :=
  let tmp := tmpPath p
  let fsMid := writeFile fs tmp File.truncated
  let fs2 := writeFile fs tmp (File.complete (mkCheckpoint s))
  let fs3 := removeFile fs2 p
  let fs4 := renameFile fs3 tmp p
  [fs, fsMid, fs2, fs3, fs4]

/-- `Trainer.loadModel`: on a missing file, open the summary writer and return
success (the cold-start path); otherwise deserialize the bundle into the
trainer (a truncated file makes `torch.load` raise, which is fatal) and then
open the summary writer under the restored log folder name. -/
def loadModel (s : TrainerState) (fs : FS) (p : String) :
    Except String TrainerState :=
  match fs p with
  | none => .ok (loadSummaryWriter s)
  | some File.truncated => .error "torch.load failed"
  | some (File.complete ck) =>
      .ok (loadSummaryWriter
        { s with model := ck.model, optimizer := ck.optimizer,
                 step := ck.step, loss_min := ck.loss_min,
                 log_folder_name := ck.log_folder_name })

/-- Observable events of a run: scalar logs, the once-per-epoch learning-rate
log (carrying the scheduler epoch that determines the logged value), a ghost
marker recording under which scheduler epochs a batch was processed, checkpoint
writes, and the two end-of-epoch schedule advancements. -/
inductive Event where
  | logScalar (tag : String) (value : ℚ) (step : Nat)
  | logLr (schedEpoch : Nat) (step : Nat)
  | batch (schedEpoch : Nat) (bnEpoch : Nat) (step : Nat)
  | save (path : String)
  | schedAdvance (newEpoch : Nat)
  | bnAdvance (newEpoch : Nat)
deriving DecidableEq

/-- The external collaborators `trainStep` composes, over a batch type `B`:
`seprate_point_cloud` plus attaching the query view, the network forward pass
producing the loss map, and the backward/optimizer update. -/
structure Collab (B : Type) where
  seprate : B → B
  fwd : ModelParams → B → LossMap
  optStep : ModelParams → OptimState → ℚ → ModelParams × OptimState

/-- `Trainer.trainStep`: synthesize the query view, run the forward pass,
concatenate and sum the loss terms, log the aggregate (failing if the summary
writer was never opened), save a best checkpoint when the aggregate strictly
undercuts `loss_min` (updating `loss_min` first), log every term's mean, then
back-propagate and apply the optimizer update.  `self.step` is not touched. -/
def trainStep {B : Type} (c : Collab B) (s : TrainerState) (fs : FS)
    (data : B) : Except String (TrainerState × FS × List Event) :=
  let d1 := c.seprate data
  let lm := c.fwd s.model d1
  let loss_sum_float := lossSum lm
  match s.summary_writer with
  | none => .error writerErr
  | some _ =>
    let ev0 := [Event.batch s.sched_epoch s.bn_epoch s.step,
                Event.logScalar "Loss/loss_sum" loss_sum_float s.step]
    let best :=
      if LossBound.ltBound loss_sum_float s.loss_min then
        let s1 : TrainerState :=
          { s with loss_min := LossBound.fin loss_sum_float }
        (s1, saveModel s1 fs (bestModelPath s1.log_folder_name),
         [Event.save (bestModelPath s1.log_folder_name)])
      else (s, fs, ([] : List Event))
    let ev2 := lm.map
      (fun p => Event.logScalar ("Loss/" ++ p.1) (lossMean p.2) s.step)
    let upd := c.optStep best.1.model best.1.optimizer loss_sum_float
    .ok ({ best.1 with model := upd.1, optimizer := upd.2 },
         best.2.1, ev0 ++ best.2.2 ++ ev2)

/-- The inner loop of `Trainer.train`: `for data in self.dataloader:
self.trainStep(data); self.step += 1` — the caller, not `trainStep`, advances
the global step counter, once after each batch. -/
def foldBatches {B : Type} (c : Collab B) :
    TrainerState → FS → List B → Except String (TrainerState × FS × List Event)
  | s, fs, [] => .ok (s, fs, [])
  | s, fs, d :: ds => do
    let r1 ← trainStep c s fs d
    let r2 ← foldBatches c { r1.1 with step := r1.1.step + 1 } r1.2.1 ds
    .ok (r2.1, r2.2.1, r1.2.2 ++ r2.2.2)

/-- One epoch of `Trainer.train`: log the current learning rate (determined by
the scheduler epoch) under the current step, consume every batch through
`trainStep` (incrementing `self.step` after each), then advance both schedule
controllers by one epoch, then persist the "last" checkpoint. -/
def runEpoch {B : Type} (c : Collab B) (s : TrainerState) (fs : FS)
    (batches : List B) : Except String (TrainerState × FS × List Event) :=
  match s.summary_writer with
  | none => .error writerErr
  | some _ => do
    let r ← foldBatches c s fs batches
    let s2 : TrainerState :=
      { r.1 with sched_epoch := r.1.sched_epoch + 1,
                 bn_epoch := r.1.bn_epoch + 1 }
    let fs2 := saveModel s2 r.2.1 (lastModelPath s2.log_folder_name)
    .ok (s2, fs2,
      Event.logLr s.sched_epoch s.step :: r.2.2 ++
        [Event.schedAdvance (r.1.sched_epoch + 1),
         Event.bnAdvance (r.1.bn_epoch + 1),
         Event.save (lastModelPath s2.log_folder_name)])

/-- `for epoch in range(total_epoch)`: the epoch loop, generalized over the
number of remaining epochs (the dataloader yields the same batch list each
epoch). -/
def trainLoop {B : Type} (c : Collab B) :
    Nat → TrainerState → FS → List B →
      Except String (TrainerState × FS × List Event)
  | 0, s, fs, _ => .ok (s, fs, [])
  | n + 1, s, fs, bs => do
    let r1 ← runEpoch c s fs bs
    let r2 ← trainLoop c n r1.1 r1.2.1 bs
    .ok (r2.1, r2.2.1, r1.2.2 ++ r2.2.2)

/-- `total_epoch = 10000000` in `Trainer.train`. -/
def total_epoch : Nat := 10000000

/-- `Trainer.train`. -/
def train {B : Type} (c : Collab B) (s : TrainerState) (fs : FS)
    (bs : List B) : Except String (TrainerState × FS × List Event) :=
  trainLoop c total_epoch s fs bs

/-- `self.lr = 5e-4`. -/
def lr : ℚ := 5 / 10000

/-- `self.decay_step = 21`. -/
def decay_step : ℕ := 21

/-- `self.lr_decay = 0.76`. -/
def lr_decay : ℝ := 0.76

/-- `self.lowest_decay = 0.02`. -/
def lowest_decay : ℝ := 0.02

/-- `self.bn_decay_step = 21`. -/
def bn_decay_step : ℕ := 21

/-- `self.bn_decay = 0.5`. -/
def bn_decay : ℝ := 0.5

/-- `self.bn_momentum = 0.9`. -/
def bn_momentum : ℝ := 0.9

/-- `self.bn_lowest_decay = 0.01`. -/
def bn_lowest_decay : ℝ := 0.01

/-- `lr_lambda = lambda e: max(self.lr_decay**(e / self.decay_step),
self.lowest_decay)` — the multiplier `LambdaLR` applies at epoch `e`. -/
noncomputable def lr_lambda (e : ℕ) : ℝ :=
  max (lr_decay ^ ((e : ℝ) / (decay_step : ℝ))) lowest_decay

/-- `bnm_lambda = lambda e: max(self.bn_momentum * self.bn_decay**(e /
self.bn_decay_step), self.bn_lowest_decay)`. -/
noncomputable def bnm_lambda (e : ℕ) : ℝ :=
  max (bn_momentum * bn_decay ^ ((e : ℝ) / (bn_decay_step : ℝ)))
    bn_lowest_decay

/-- The learning rate held by the optimizer while the scheduler is at epoch
`e`: `LambdaLR` sets it to the base rate times the lambda's multiplier.  This
is the value `train` logs as `"Lr/lr"` for a `Event.logLr e _` event. -/
noncomputable def lrValue (e : ℕ) : ℝ := (lr : ℝ) * lr_lambda e

/-- What `trainStep` may emit, relative to the state it started from: batch
markers carry the starting schedule epochs, no schedule advancement happens,
and any checkpoint write goes to the best-model destination of the starting
log folder name. -/
def eventProp (s : TrainerState) : Event → Prop
  | .logScalar _ _ n => n = s.step
  | .logLr _ _ => False
  | .batch a b n => a = s.sched_epoch ∧ b = s.bn_epoch ∧ n = s.step
  | .save q => q = bestModelPath s.log_folder_name
  | .schedAdvance _ => False
  | .bnAdvance _ => False

/-- What any event emitted while processing the batches of one epoch
satisfies: batch markers carry the epoch-start schedule epochs, no learning
rate is logged, no schedule controller advances, and every checkpoint write
goes to the best-model destination of the run. -/
def epochEventProp (s : TrainerState) : Event → Prop
  | .logScalar _ _ _ => True
  | .logLr _ _ => False
  | .batch a b _ => a = s.sched_epoch ∧ b = s.bn_epoch
  | .save q => q = bestModelPath s.log_folder_name
  | .schedAdvance _ => False
  | .bnAdvance _ => False

/-- Ordering of one epoch of `train`: the epoch's trace starts with the single
learning-rate log (under the epoch-start scheduler epoch), then come the batch
events — none of which logs a learning rate, advances a schedule controller,
or writes the "last" checkpoint, and whose batch markers all carry the
epoch-start schedule epochs, so every batch is processed under the same
learning rate `lrValue s.sched_epoch` and the same batch-norm momentum — and
only after all of them the two schedule advancements and, after those, the
"last" checkpoint write. -/
def epochOrdering {B : Type} (c : Collab B) (s : TrainerState) (fs : FS)
    (bs : List B) : Prop :=
  ∃ r : TrainerState × FS × List Event, ∃ btr : List Event,
    runEpoch c s fs bs = .ok r ∧
    r.2.2 = Event.logLr s.sched_epoch s.step :: btr ++
      [Event.schedAdvance (s.sched_epoch + 1),
       Event.bnAdvance (s.bn_epoch + 1),
       Event.save (lastModelPath s.log_folder_name)] ∧
    (∀ e ∈ btr, epochEventProp s e) ∧
    (∀ k m, Event.logLr k m ∉ btr) ∧
    (∀ k, Event.schedAdvance k ∉ btr) ∧
    (∀ k, Event.bnAdvance k ∉ btr) ∧
    Event.save (lastModelPath s.log_folder_name) ∉ btr ∧
    r.1.sched_epoch = s.sched_epoch + 1 ∧
    r.1.bn_epoch = s.bn_epoch + 1

/-- A concrete network/optimizer payload used to exercise the theorems. -/
def mpEx : ModelParams := ⟨[1]⟩

/-- A concrete optimizer payload used to exercise the theorems. -/
def osEx : OptimState := ⟨[2]⟩

/-- Trivial collaborators over rational "batches": the forward pass returns a
single scalar loss term equal to the batch value. -/
def cQ : Collab ℚ :=
  ⟨fun b => b, fun _ b => [("loss", Tensor.scalar b)], fun m o _ => (m, o)⟩

/-- A freshly constructed trainer (log folder `"t"`) whose writer is open. -/
def sEx : TrainerState := loadSummaryWriter (initTrainer "t" mpEx osEx)

/-- The empty filesystem. -/
def fsEmpty : FS := fun _ => none

/-- Run `trainStep` over a list of aggregate losses (with the caller's step
increment after each, as in `train`) and record, per step, whether a "best"
checkpoint write event was emitted. -/
def stepFlags : TrainerState → FS → List ℚ → List Bool
  | _, _, [] => []
  | s, fs, l :: ls =>
    match trainStep cQ s fs l with
    | .error _ => []
    | .ok r =>
      decide (Event.save (bestModelPath s.log_folder_name) ∈ r.2.2) ::
        stepFlags { r.1 with step := r.1.step + 1 } r.2.1 ls

/-- Best-model tracking of one `trainStep`: a best checkpoint write happens
iff the aggregate loss strictly undercuts `loss_min`, and `loss_min` becomes
the new aggregate exactly in that case. -/
def bestTrackingProp {B : Type} (c : Collab B) (s : TrainerState) (fs : FS)
    (d : B) : Prop :=
  ∃ r : TrainerState × FS × List Event, trainStep c s fs d = .ok r ∧
    ((Event.save (bestModelPath s.log_folder_name) ∈ r.2.2) ↔
      LossBound.ltBound (lossSum (c.fwd s.model (c.seprate d))) s.loss_min
        = true) ∧
    (LossBound.ltBound (lossSum (c.fwd s.model (c.seprate d))) s.loss_min
        = true →
      r.1.loss_min = LossBound.fin (lossSum (c.fwd s.model (c.seprate d)))) ∧
    (LossBound.ltBound (lossSum (c.fwd s.model (c.seprate d))) s.loss_min
        = false →
      r.1.loss_min = s.loss_min)

/-- The cold-start contract of `loadModel` for a freshly constructed trainer:
success, `step = 0`, `loss_min = inf`, and a logging stream opened under the
construction-time log folder name — which differs from any other run's
(distinct names give distinct destinations). -/
def coldStart (t : String) (m : ModelParams) (o : OptimState) (fs : FS)
    (p : String) : Prop :=
  loadModel (initTrainer t m o) fs p =
      .ok { initTrainer t m o with summary_writer := some (writerPath t) } ∧
    (initTrainer t m o).step = 0 ∧
    (initTrainer t m o).loss_min = LossBound.inf ∧
    (∀ tPrior : String, tPrior ≠ t → writerPath tPrior ≠ writerPath t)

/-- The crash-atomicity property the spec asserts of `saveModel`: at every
interruption point, the destination path holds either its pre-save content or
the complete new checkpoint (in particular it is never absent after a
previous save). -/
def saveAtomicClaim : Prop :=
  ∀ (s : TrainerState) (fs : FS) (p : String), ∀ g ∈ saveModelTrace s fs p,
    g p = fs p ∨ g p = some (File.complete (mkCheckpoint s))

/-- A pre-existing checkpoint occupying the destination before a second save. -/
def ckOld : Checkpoint :=
  { model := ⟨[0]⟩, optimizer := ⟨[0]⟩, step := 7,
    loss_min := LossBound.fin 2, log_folder_name := "old" }

/-- A filesystem holding the previous checkpoint at `"m.pth"`. -/
def fsOld : FS :=
  fun q => if q = "m.pth" then some (File.complete ckOld) else none

/-- Either `sep` never occurs in `s` (and `splitFirst` returns all of `s`), or
`s` splits as the prefix returned by `splitFirst` followed by a remainder that
starts with `sep`. -/
theorem splitFirst_spec (sep : List Char) (s : List Char) :
    splitFirst sep s = s ∨
      ∃ r, s = splitFirst sep s ++ r ∧ sep <+: r := by
  induction s with
  | nil => left; rfl
  | cons c cs ih =>
    by_cases h : sep.isPrefixOf (c :: cs)
    · right
      refine ⟨c :: cs, ?_, ?_⟩
      · simp [splitFirst, h]
      · exact List.isPrefixOf_iff_prefix.mp h
    · rcases ih with h1 | ⟨r, hr, hpre⟩
      · left; simp [splitFirst, h, h1]
      · right
        refine ⟨r, ?_, hpre⟩
        simp only [splitFirst, h, if_neg]
        simpa using hr

/-- The temporary sibling path is never the destination path itself: the
temporary name ends in `_tmp.pth` appended after the cut at `.pth`. -/
theorem tmpPath_ne (p : String) : tmpPath p ≠ p := by
  intro hEq
  have hdata : splitFirst ".pth".data p.data ++ "_tmp.pth".data = p.data := by
    have := congrArg String.data hEq
    simpa [tmpPath] using this
  rcases splitFirst_spec ".pth".data p.data with h1 | ⟨r, hr, hpre⟩
  · rw [h1] at hdata
    have hlen := congrArg List.length hdata
    simp at hlen
  · have hqr : splitFirst ".pth".data p.data ++ "_tmp.pth".data =
        splitFirst ".pth".data p.data ++ r := hdata.trans hr
    have h2 : "_tmp.pth".data = r := List.append_cancel_left hqr
    rcases hpre with ⟨t, ht⟩
    rw [← h2] at ht
    simp [List.cons_eq_cons] at ht

/-- `writerPath` is injective: distinct log folder names give distinct
logging destinations. -/
theorem writerPath_inj (a b : String) (h : writerPath a = writerPath b) :
    a = b := by
  have hd := congrArg String.data h
  simp [writerPath, String.data_append] at hd
  exact String.ext hd

/-- The best and last checkpoint destinations of one run never collide. -/
theorem bestModelPath_ne_lastModelPath (ns : String) :
    bestModelPath ns ≠ lastModelPath ns := by
  intro h
  have hd := congrArg String.data h
  simp [bestModelPath, lastModelPath, String.data_append] at hd

/-- After `saveModel`, the destination holds the complete bundle of the saved
state. -/
theorem saveModel_read (s : TrainerState) (fs : FS) (p : String) :
    saveModel s fs p p = some (File.complete (mkCheckpoint s)) := by
  have hne : ¬ p = tmpPath p := fun h => tmpPath_ne p h.symm
  simp [saveModel, renameFile, removeFile, writeFile, hne, tmpPath_ne p]

theorem trainStep_spec {B : Type} (c : Collab B) (s : TrainerState) (fs : FS)
    (d : B) (w : String) (hw : s.summary_writer = some w) :
    ∃ r : TrainerState × FS × List Event, trainStep c s fs d = .ok r ∧
      r.1.step = s.step ∧
      r.1.sched_epoch = s.sched_epoch ∧
      r.1.bn_epoch = s.bn_epoch ∧
      r.1.log_folder_name = s.log_folder_name ∧
      r.1.summary_writer = s.summary_writer ∧
      (∀ e ∈ r.2.2, eventProp s e) ∧
      ((Event.save (bestModelPath s.log_folder_name) ∈ r.2.2) ↔
        LossBound.ltBound (lossSum (c.fwd s.model (c.seprate d))) s.loss_min
          = true) ∧
      (if LossBound.ltBound (lossSum (c.fwd s.model (c.seprate d))) s.loss_min
          = true then
        r.1.loss_min
            = LossBound.fin (lossSum (c.fwd s.model (c.seprate d))) ∧
          r.2.1 = saveModel
            { s with loss_min :=
                LossBound.fin (lossSum (c.fwd s.model (c.seprate d))) }
            fs (bestModelPath s.log_folder_name)
      else r.1.loss_min = s.loss_min ∧ r.2.1 = fs) ∧
      r.1.model
        = (c.optStep s.model s.optimizer
            (lossSum (c.fwd s.model (c.seprate d)))).1 ∧
      r.1.optimizer
        = (c.optStep s.model s.optimizer
            (lossSum (c.fwd s.model (c.seprate d)))).2 := by
  cases hlt : LossBound.ltBound (lossSum (c.fwd s.model (c.seprate d)))
      s.loss_min with
  | true =>
    refine ⟨_, by simp [trainStep, hw, hlt]; rfl,
      rfl, rfl, rfl, rfl, hw.symm, ?_, ?_, ?_, rfl, rfl⟩
    · intro e he
      simp only [List.mem_cons, List.mem_map] at he
      rcases he with rfl | rfl | rfl | ⟨x, hx, rfl⟩
      · exact ⟨rfl, rfl, rfl⟩
      · rfl
      · rfl
      · rfl
    · simp [hlt]
    · simp [hlt, hw]
  | false =>
    refine ⟨_, by simp [trainStep, hw, hlt]; rfl,
      rfl, rfl, rfl, rfl, hw.symm, ?_, ?_, ?_, rfl, rfl⟩
    · intro e he
      simp only [List.mem_cons, List.mem_map] at he
      rcases he with rfl | rfl | ⟨x, hx, rfl⟩
      · exact ⟨rfl, rfl, rfl⟩
      · rfl
      · rfl
    · simp [hlt]
    · simp [hlt, hw]

theorem eventProp_epoch (s : TrainerState) (e : Event) (h : eventProp s e) :
    epochEventProp s e := by
  cases e <;> simp_all [eventProp, epochEventProp]

theorem epochEventProp_congr (s s' : TrainerState) (e : Event)
    (hsch : s'.sched_epoch = s.sched_epoch) (hbn : s'.bn_epoch = s.bn_epoch)
    (hlog : s'.log_folder_name = s.log_folder_name)
    (h : epochEventProp s' e) : epochEventProp s e := by
  cases e <;> simp_all [epochEventProp]

/-- `Except` bind on a success just applies the continuation. -/
theorem exceptBind_ok {e a b : Type} (x : a) (f : a → Except e b) :
    (Except.ok x : Except e a) >>= f = f x := rfl

theorem foldBatches_spec {B : Type} (c : Collab B) (bs : List B) :
    ∀ (s : TrainerState) (fs : FS) (w : String), s.summary_writer = some w →
      ∃ r : TrainerState × FS × List Event,
        foldBatches c s fs bs = .ok r ∧
        r.1.sched_epoch = s.sched_epoch ∧
        r.1.bn_epoch = s.bn_epoch ∧
        r.1.log_folder_name = s.log_folder_name ∧
        r.1.summary_writer = s.summary_writer ∧
        r.1.step = s.step + bs.length ∧
        (∀ e ∈ r.2.2, epochEventProp s e) := by
  induction bs with
  | nil =>
    intro s fs w hw
    exact ⟨(s, fs, []), rfl, rfl, rfl, rfl, rfl, by simp, by simp⟩
  | cons d ds ih =>
    intro s fs w hw
    obtain ⟨r1, h1, hstep1, hsch1, hbn1, hlog1, hwr1, hev1, hiff1, hif1, hm1, ho1⟩ :=
      trainStep_spec c s fs d w hw
    obtain ⟨r2, h2, hsch2, hbn2, hlog2, hwr2, hstep2, hev2⟩ :=
      ih { r1.1 with step := r1.1.step + 1 } r1.2.1 w (hwr1.trans hw)
    refine ⟨(r2.1, r2.2.1, r1.2.2 ++ r2.2.2), ?_, ?_, ?_, ?_, ?_, ?_, ?_⟩
    · simp [foldBatches, h1, h2, exceptBind_ok]
    · simpa [hsch1] using hsch2
    · simpa [hbn1] using hbn2
    · simpa [hlog1] using hlog2
    · simpa [hwr1] using hwr2
    · simp only [List.length_cons]
      have : r2.1.step = r1.1.step + 1 + ds.length := hstep2
      omega
    · intro e he
      rcases List.mem_append.mp he with he1 | he2
      · exact eventProp_epoch s e (hev1 e he1)
      · exact epochEventProp_congr s _ e hsch1 hbn1 hlog1 (hev2 e he2)

/-- C6: in every epoch of `train`, both schedule controllers advance strictly
after all batches of the epoch were consumed by `trainStep`; every batch of
the epoch is processed under the same (epoch-start) learning rate and
batch-norm momentum; the learning rate is logged once per epoch, determined by
the epoch-start scheduler epoch; and the "last" checkpoint is persisted after
the schedule advancement. -/
theorem train_epoch_ordering {B : Type} (c : Collab B) (s : TrainerState)
    (fs : FS) (bs : List B) (w : String) (hw : s.summary_writer = some w) :
    epochOrdering c s fs bs := by
  obtain ⟨rf, hf, hsch, hbn, hlog, hwr, hstep, hev⟩ :=
    foldBatches_spec c bs s fs w hw
  refine ⟨_, rf.2.2, by simp [runEpoch, hw, hf, exceptBind_ok]; rfl,
    ?_, hev, ?_, ?_, ?_, ?_, ?_, ?_⟩
  · simp [hsch, hbn, hlog]
  · intro k m hmem
    have := hev _ hmem
    simp [epochEventProp] at this
  · intro k hmem
    have := hev _ hmem
    simp [epochEventProp] at this
  · intro k hmem
    have := hev _ hmem
    simp [epochEventProp] at this
  · intro hmem
    have := hev _ hmem
    simp [epochEventProp] at this
    exact bestModelPath_ne_lastModelPath s.log_folder_name this.symm
  · simp [hsch]
  · simp [hbn]

/-- `Except` bind on an error short-circuits. -/
theorem exceptBind_err {e a b : Type} (x : e) (f : a → Except e b) :
    (Except.error x : Except e a) >>= f = Except.error x := rfl

/-- C3: a "best" checkpoint is written iff the batch's aggregate loss strictly
undercuts the running minimum (which is then updated to the new aggregate);
over the loss sequence [5, 3, 4, 1] from `loss_min = inf`, best checkpoints
are written exactly at the steps with losses 5, 3 and 1. -/
theorem trainStep_best_tracking :
    (∀ (B : Type) (c : Collab B) (s : TrainerState) (fs : FS) (d : B)
        (w : String), s.summary_writer = some w → bestTrackingProp c s fs d) ∧
      stepFlags sEx fsEmpty [5, 3, 4, 1] = [true, true, false, true] := by
  constructor
  · intro B c s fs d w hw
    obtain ⟨r, heq, hstep, hsch, hbn, hlog, hwr, hev, hiff, hif, hm, ho⟩ :=
      trainStep_spec c s fs d w hw
    refine ⟨r, heq, hiff, ?_, ?_⟩
    · intro h
      rw [h] at hif
      simpa using hif.1
    · intro h
      rw [h] at hif
      simpa using hif.1
  · norm_num [stepFlags, trainStep, cQ, sEx, fsEmpty, loadSummaryWriter,
      initTrainer, lossSum, catLosses, Tensor.flat, LossBound.ltBound,
      bestModelPath, lossMean, writerPath]
    decide

/-- Witness for C3 at a concrete input. -/
theorem trainStep_best_tracking_witness :
    sEx.summary_writer = some (writerPath "t") ∧
      bestTrackingProp cQ sEx fsEmpty (5 : ℚ) :=
  ⟨rfl, trainStep_best_tracking.1 ℚ cQ sEx fsEmpty 5 (writerPath "t") rfl⟩

/-- C8: `trainStep` never changes the step counter; the caller's loop
(`foldBatches`, the inner loop of `train`) increments it once per batch, so
after `n` batches the counter advanced by exactly `n`. -/
theorem trainStep_step_frame :
    (∀ (B : Type) (c : Collab B) (s : TrainerState) (fs : FS) (d : B)
        (r : TrainerState × FS × List Event),
        trainStep c s fs d = .ok r → r.1.step = s.step) ∧
    (∀ (B : Type) (c : Collab B) (s : TrainerState) (fs : FS) (bs : List B)
        (w : String), s.summary_writer = some w →
        ∃ r : TrainerState × FS × List Event,
          foldBatches c s fs bs = .ok r ∧ r.1.step = s.step + bs.length) := by
  constructor
  · intro B c s fs d r h
    cases hw : s.summary_writer with
    | none => simp [trainStep, hw] at h
    | some w =>
      obtain ⟨r2, heq, hstep, hrest⟩ := trainStep_spec c s fs d w hw
      rw [heq] at h
      injection h with h
      rw [← h]
      exact hstep
  · intro B c s fs bs w hw
    obtain ⟨r, heq, hsch, hbn, hlog, hwr, hstep, hev⟩ :=
      foldBatches_spec c bs s fs w hw
    exact ⟨r, heq, hstep⟩

/-- Witness for C8 at a concrete input. -/
theorem trainStep_step_frame_witness :
    sEx.summary_writer = some (writerPath "t") ∧
      ∃ r : TrainerState × FS × List Event,
        foldBatches cQ sEx fsEmpty [(5 : ℚ)] = .ok r ∧
          r.1.step = sEx.step + [(5 : ℚ)].length :=
  ⟨rfl, trainStep_step_frame.2 ℚ cQ sEx fsEmpty [5] (writerPath "t") rfl⟩

/-- C9: when a batch sets a new minimum, `loss_min` is updated before
`saveModel` runs, so the "best" checkpoint on disk carries the new `loss_min`
(the aggregate of the triggering batch) together with the model and optimizer
state from before this batch's optimizer update; only afterwards is the
in-memory model updated. -/
theorem best_checkpoint_content {B : Type} (c : Collab B) (s : TrainerState)
    (fs : FS) (d : B) (w : String) (hw : s.summary_writer = some w)
    (hlt : LossBound.ltBound (lossSum (c.fwd s.model (c.seprate d)))
      s.loss_min = true) :
    ∃ r : TrainerState × FS × List Event, trainStep c s fs d = .ok r ∧
      r.2.1 (bestModelPath s.log_folder_name) = some (File.complete
        { model := s.model, optimizer := s.optimizer, step := s.step,
          loss_min := LossBound.fin (lossSum (c.fwd s.model (c.seprate d))),
          log_folder_name := s.log_folder_name }) ∧
      r.1.loss_min
          = LossBound.fin (lossSum (c.fwd s.model (c.seprate d))) ∧
      r.1.model = (c.optStep s.model s.optimizer
        (lossSum (c.fwd s.model (c.seprate d)))).1 := by
  obtain ⟨r, heq, hstep, hsch, hbn, hlog, hwr, hev, hiff, hif, hm, ho⟩ :=
    trainStep_spec c s fs d w hw
  rw [hlt] at hif
  simp only [if_true] at hif
  refine ⟨r, heq, ?_, hif.1, hm⟩
  rw [hif.2, saveModel_read]
  rfl

/-- Witness for C9 at a concrete input. -/
theorem best_checkpoint_content_witness :
    sEx.summary_writer = some (writerPath "t") ∧
      LossBound.ltBound (lossSum (cQ.fwd sEx.model (cQ.seprate 5)))
        sEx.loss_min = true ∧
      ∃ r : TrainerState × FS × List Event,
        trainStep cQ sEx fsEmpty (5 : ℚ) = .ok r ∧
        r.2.1 (bestModelPath sEx.log_folder_name) = some (File.complete
          { model := sEx.model, optimizer := sEx.optimizer, step := sEx.step,
            loss_min :=
              LossBound.fin (lossSum (cQ.fwd sEx.model (cQ.seprate 5))),
            log_folder_name := sEx.log_folder_name }) ∧
        r.1.loss_min
            = LossBound.fin (lossSum (cQ.fwd sEx.model (cQ.seprate 5))) ∧
        r.1.model = (cQ.optStep sEx.model sEx.optimizer
          (lossSum (cQ.fwd sEx.model (cQ.seprate 5)))).1 :=
  ⟨rfl, rfl, best_checkpoint_content cQ sEx fsEmpty 5 (writerPath "t") rfl rfl⟩

/-- With no summary writer, any positive number of epochs fails at the very
first learning-rate log. -/
theorem trainLoop_no_writer {B : Type} (c : Collab B) (n : Nat)
    (s : TrainerState) (fs : FS) (bs : List B)
    (hw : s.summary_writer = none) (hn : n ≠ 0) :
    trainLoop c n s fs bs = .error writerErr := by
  cases n with
  | zero => exact absurd rfl hn
  | succ m => simp [trainLoop, runEpoch, hw, exceptBind_err]

/-- C10: construction leaves `summary_writer = None`; only
`loadSummaryWriter` (called by `loadModel`) opens it; a freshly constructed
trainer therefore fails with an error — it does not log to some default
destination — as soon as `trainStep` or `train` attempts to log a scalar. -/
theorem uninitialized_writer_fails (t : String) (m : ModelParams)
    (o : OptimState) :
    (initTrainer t m o).summary_writer = none ∧
    (loadSummaryWriter (initTrainer t m o)).summary_writer
        = some (writerPath t) ∧
    (∀ (B : Type) (c : Collab B) (fs : FS) (d : B),
      trainStep c (initTrainer t m o) fs d = .error writerErr) ∧
    (∀ (B : Type) (c : Collab B) (fs : FS) (bs : List B),
      train c (initTrainer t m o) fs bs = .error writerErr) := by
  refine ⟨rfl, rfl, ?_, ?_⟩
  · intro B c fs d
    simp [trainStep, initTrainer]
  · intro B c fs bs
    exact trainLoop_no_writer c total_epoch (initTrainer t m o) fs bs rfl
      (by simp [total_epoch])

/-- C7: the aggregate loss — concatenation of every (reshaped) loss term
followed by one sum — equals the sum over all named loss terms of that term's
total (summed) contribution; a zero-dimensional term contributes its single
value, a flattened term all its entries. -/
theorem lossSum_eq_total_of_terms :
    (∀ lm : LossMap, lossSum lm = (lm.map (fun p => p.2.flat.sum)).sum) ∧
    (∀ v : ℚ, (Tensor.scalar v).flat = [v]) ∧
    (∀ vs : List ℚ, (Tensor.vec vs).flat = vs) := by
  refine ⟨fun lm => ?_, fun v => rfl, fun vs => rfl⟩
  simp [lossSum, catLosses, List.sum_flatten, List.map_map]
  rfl

/-- C2: saving a checkpoint and loading it back restores `step`, `loss_min`,
`log_folder_name`, and the model and optimizer state to their values at save
time (and re-opens the logging stream under the restored log folder name). -/
theorem saveModel_loadModel_roundTrip (s0 s1 : TrainerState) (fs : FS)
    (p : String) :
    loadModel s1 (saveModel s0 fs p) p = .ok
      { s1 with model := s0.model, optimizer := s0.optimizer,
                step := s0.step, loss_min := s0.loss_min,
                log_folder_name := s0.log_folder_name,
                summary_writer := some (writerPath s0.log_folder_name) } := by
  have h := saveModel_read s0 fs p
  simp [loadModel, h, loadSummaryWriter, mkCheckpoint]

/-- C4: loading a nonexistent path is not an error: it returns success,
leaves the trainer at step 0 with `loss_min = inf`, and opens a fresh logging
stream under the construction-time log namespace. -/
theorem loadModel_cold_start (t : String) (m : ModelParams) (o : OptimState)
    (fs : FS) (p : String) (habs : fs p = none) : coldStart t m o fs p := by
  refine ⟨?_, rfl, rfl, ?_⟩
  · simp [loadModel, habs, loadSummaryWriter, initTrainer]
  · intro tp hne h
    exact hne (writerPath_inj tp t h)

/-- Witness for C4 at a concrete input. -/
theorem loadModel_cold_start_witness :
    fsEmpty "./output/t/model_last.pth" = none ∧
      coldStart "t" mpEx osEx fsEmpty "./output/t/model_last.pth" :=
  ⟨rfl, loadModel_cold_start "t" mpEx osEx fsEmpty "./output/t/model_last.pth"
    rfl⟩

/-- C5: the learning-rate multiplier equals `max(0.76^(e/21), 0.02)` and the
batch-norm momentum equals `max(0.9 * 0.5^(e/21), 0.01)`; the learning-rate
multiplier is non-increasing in the epoch index, never drops below 0.02, and
is exactly 1 at epoch 0. -/
theorem schedule_functions_spec :
    (∀ e : ℕ, lr_lambda e = max ((0.76 : ℝ) ^ ((e : ℝ) / 21)) 0.02) ∧
    (∀ e : ℕ, bnm_lambda e
      = max (0.9 * (0.5 : ℝ) ^ ((e : ℝ) / 21)) 0.01) ∧
    (∀ a b : ℕ, a ≤ b → lr_lambda b ≤ lr_lambda a) ∧
    (∀ e : ℕ, 0.02 ≤ lr_lambda e) ∧
    lr_lambda 0 = 1 := by
  have h21 : ((decay_step : ℕ) : ℝ) = 21 := by norm_num [decay_step]
  refine ⟨fun e => ?_, fun e => ?_, fun a b hab => ?_, fun e => ?_, ?_⟩
  · simp [lr_lambda, lr_decay, lowest_decay, h21]
  · simp [bnm_lambda, bn_momentum, bn_decay, bn_lowest_decay, bn_decay_step]
  · unfold lr_lambda
    refine max_le_max ?_ le_rfl
    apply Real.rpow_le_rpow_of_exponent_ge
    · norm_num [lr_decay]
    · norm_num [lr_decay]
    · rw [h21]
      apply div_le_div_of_nonneg_right ?_ ?_
      · exact_mod_cast hab
      · norm_num
  · unfold lr_lambda lowest_decay
    exact le_max_right _ _
  · unfold lr_lambda
    rw [show ((0 : ℕ) : ℝ) = 0 by norm_num, zero_div, Real.rpow_zero]
    norm_num [lowest_decay]

/-- Witness for C5 at concrete epochs. -/
theorem schedule_functions_spec_witness :
    (0 : ℕ) ≤ 1 ∧ lr_lambda 1 ≤ lr_lambda 0 :=
  ⟨Nat.zero_le 1, schedule_functions_spec.2.2.1 0 1 (Nat.zero_le 1)⟩

/-- C1 counterexample: `saveModel` removes the old destination file before
renaming the temporary file into place, so at the interruption point between
`removeFile` and `renameFile` the destination is absent — neither the
pre-save content nor the new checkpoint. -/
theorem saveModel_atomicity_fails : ¬ saveAtomicClaim := by
  intro h
  have hmem : removeFile (writeFile fsOld (tmpPath "m.pth")
        (File.complete (mkCheckpoint sEx))) "m.pth"
      ∈ saveModelTrace sEx fsOld "m.pth" := by
    simp [saveModelTrace]
  have hc := h sEx fsOld "m.pth" _ hmem
  rcases hc with hc | hc
  · simp [removeFile, fsOld] at hc
  · simp [removeFile] at hc

/-- C1 amended: at every interruption point of `saveModel` the destination
holds the complete pre-save content, the complete new checkpoint, or is
absent (the window between the removal of the old file and the rename); it is
never a truncated or partially written file. -/
theorem saveModel_interruptions (s : TrainerState) (fs : FS) (p : String)
    (g : FS) (hg : g ∈ saveModelTrace s fs p) :
    g p = fs p ∨ g p = some (File.complete (mkCheckpoint s)) ∨ g p = none := by
  have hne : ¬ p = tmpPath p := fun h => tmpPath_ne p h.symm
  simp [saveModelTrace] at hg
  rcases hg with rfl | rfl | rfl | rfl | rfl
  · exact Or.inl rfl
  · left
    simp [writeFile, hne]
  · left
    simp [writeFile, hne]
  · right; right
    simp [removeFile]
  · right; left
    simp [renameFile, removeFile, writeFile, hne, tmpPath_ne p]

/-- Witness for the amended C1 at a concrete interruption point. -/
theorem saveModel_interruptions_witness :
    (fsOld ∈ saveModelTrace sEx fsOld "m.pth") ∧
      (fsOld "m.pth" = fsOld "m.pth" ∨
        fsOld "m.pth" = some (File.complete (mkCheckpoint sEx)) ∨
        fsOld "m.pth" = none) :=
  ⟨by simp [saveModelTrace],
    saveModel_interruptions sEx fsOld "m.pth" fsOld
      (by simp [saveModelTrace])⟩

/-- Witness for C6 at a concrete input. -/
theorem train_epoch_ordering_witness :
    sEx.summary_writer = some (writerPath "t") ∧
      epochOrdering cQ sEx fsEmpty ([] : List ℚ) :=
  ⟨rfl, train_epoch_ordering cQ sEx fsEmpty [] (writerPath "t") rfl⟩
